import Mathlib

/-!
Verification of the offline-first data synchronization subsystem of the
ASHA Connect backend against its natural-language specification.

The development shallowly embeds the two modules that implement the
subsystem:

- `src/services/offline_manager.py` (`OfflineManager`): the local SQLite
  store (`patients`, `health_assessments`, `sync_queue`, `resources`
  tables), the prioritized sync queue, the sync pass with its
  single-flight gate, timestamp-based conflict resolution, and the
  storage reclaimer.
- `src/services/sync_service.py` (`SyncService`): the parallel
  `sync_data`-table pipeline with pending/synced/failed statuses,
  permanent-failure classification and `retry_failed_sync`.

Modelling conventions, used throughout:

- SQLite rows become Lean structures; a table becomes a `List` of rows.
  Both tables keep their primary-key column; operations that rely on the
  PRIMARY KEY constraint model the `INSERT` failure on a duplicate key
  explicitly.
- ISO-8601 timestamp strings (always produced by
  `datetime.now().isoformat()` in a fixed format, and compared either
  lexicographically by SQLite or chronologically after
  `datetime.fromisoformat`) are modelled as `Nat` instants; for a fixed
  format the lexicographic order on the strings agrees with the order of
  the instants they denote.
- Effects that depend on the outside world (connectivity, the remote
  document store, `json.loads` succeeding, I/O errors raised by SQLite)
  are supplied by explicit environment parameters, so an execution of an
  operation is a pure function of the prior state and the environment.
- Python exceptions are modelled by the visible control flow they cause:
  every `try/except` in the source either swallows the error (the model
  returns the unchanged component) or converts it into a return value.
-/

namespace OfflineManager

/-- Result of reading the `updated_at` key of a record's payload dict and
feeding it to `datetime.fromisoformat`, as `_resolve_conflict` does:
the key may be absent or falsy (`missing`), present but not parseable as
a timestamp (`unparseable`, which makes `fromisoformat` raise), or a
well-formed timestamp denoting an instant (`parsed t`). -/
inductive TSField where
  | missing
  | unparseable
  | parsed (t : Int)
deriving DecidableEq, Repr

/-- Shallow embedding of `OfflineManager._resolve_conflict`
(`src/services/offline_manager.py:617`).  Returns `true` when the local
data should be used.  The source first returns `True` if either
`updated_at` is missing or falsy; then parses both timestamps inside a
`try` block whose `except` also returns `True`, so an unparseable
timestamp on either side yields `True`; otherwise it returns
`local_time > central_time` (strict). -/
def resolveConflict (central localTs : TSField) : Bool :=
  match central, localTs with
  | .missing, _ => true
  | _, .missing => true
  | .unparseable, _ => true
  | _, .unparseable => true
  | .parsed c, .parsed l => decide (c < l)

/-- Shallow embedding of the local-vs-remote decision taken by
`OfflineManager._sync_patient` (`src/services/offline_manager.py:559`):
if `find_one` on the central store returns nothing the local record is
inserted (local wins); otherwise `_resolve_conflict` decides. -/
def syncPatientUsesLocal (central : Option TSField) (localTs : TSField) : Bool :=
  match central with
  | none => true
  | some c => resolveConflict c localTs

/-- Modelled from the spec: the Conflict Resolver as the specification
words it — local wins iff the remote copy is absent, or either timestamp
is missing or unparseable, or local `updated_at` is greater than *or
equal to* remote `updated_at` (exact ties favor local).  Stated only to
be compared with `syncPatientUsesLocal`, the embedding of the source. -/
def specUsesLocal (central : Option TSField) (localTs : TSField) : Bool :=
  match central with
  | none => true
  | some c =>
    match c, localTs with
    | .missing, _ => true
    | _, .missing => true
    | .unparseable, _ => true
    | _, .unparseable => true
    | .parsed ct, .parsed lt => decide (ct ≤ lt)

/-- Row of the `sync_queue` table created by `_init_local_storage`
(`src/services/offline_manager.py:126`): `sync_id` is the PRIMARY KEY,
`priority` defaults to 1, `retry_count` to 0, `last_attempt` and
`error_message` are nullable. -/
structure SyncQueueRow where
  sync_id : String
  record_type : String
  record_id : String
  data : String
  priority : Int
  created_at : Nat
  retry_count : Nat
  last_attempt : Option Nat
  error_message : Option String
deriving DecidableEq, Repr

/-- The ordering used by `_get_sync_queue_records`
(`src/services/offline_manager.py:504`):
`ORDER BY priority DESC, retry_count ASC, created_at ASC`. -/
def queueOrder (a b : SyncQueueRow) : Prop :=
  b.priority < a.priority ∨
    (a.priority = b.priority ∧
      (a.retry_count < b.retry_count ∨
        (a.retry_count = b.retry_count ∧ a.created_at ≤ b.created_at)))

instance : DecidableRel queueOrder := fun a b => by
  unfold queueOrder; infer_instance

instance : IsTotal SyncQueueRow queueOrder :=
  ⟨by intro a b; unfold queueOrder; omega⟩

instance : IsTrans SyncQueueRow queueOrder :=
  ⟨by intro a b c; unfold queueOrder; omega⟩

/-- Shallow embedding of `OfflineManager._get_sync_queue_records`
(`src/services/offline_manager.py:489`): the queue rows ordered by
`(priority DESC, retry_count ASC, created_at ASC)` and truncated to
`limit` rows (`LIMIT ?`, default 50 at the call site). -/
def getSyncQueueRecords (q : List SyncQueueRow) (limit : Nat) : List SyncQueueRow :=
  (List.insertionSort queueOrder q).take limit

/-- C1, counterexample: at an exact timestamp tie (remote present, both
`updated_at` parseable and equal) the source resolver keeps the central
copy (`local_time > central_time` is `False`), while the claim — local
wins whenever local `updated_at` is greater than or equal to remote —
demands the local copy.  The claimed and embedded resolvers disagree at
this concrete input. -/
theorem resolveConflict_tie_refutes_claim :
    syncPatientUsesLocal (some (.parsed 0)) (.parsed 0) = false ∧
      specUsesLocal (some (.parsed 0)) (.parsed 0) = true := by
  decide

/-- C1, amended: the resolver picks local iff the remote copy is absent,
or either `updated_at` is missing or unparseable, or the local
`updated_at` is *strictly* greater than the remote one; an exact
timestamp tie resolves in favor of the remote copy. -/
theorem resolveConflict_characterization (central : Option TSField) (localTs : TSField) :
    syncPatientUsesLocal central localTs = true ↔
      central = none ∨
        ∃ c, central = some c ∧
          (c = .missing ∨ c = .unparseable ∨
            localTs = .missing ∨ localTs = .unparseable ∨
            ∃ ct lt, c = .parsed ct ∧ localTs = .parsed lt ∧ ct < lt) := by
  rcases central with _ | c
  · simp [syncPatientUsesLocal]
  · cases c <;> cases localTs <;>
      simp [syncPatientUsesLocal, resolveConflict]

/-- C2: for every queue state and batch limit, the batch returned by
`_get_sync_queue_records` contains at most `limit` rows and is sorted by
priority descending, then retry_count ascending, then created_at
ascending. -/
theorem getSyncQueueRecords_sorted_and_bounded (q : List SyncQueueRow) (limit : Nat) :
    (getSyncQueueRecords q limit).length ≤ limit ∧
      (getSyncQueueRecords q limit).Pairwise (fun a b =>
        b.priority < a.priority ∨
          (a.priority = b.priority ∧
            (a.retry_count < b.retry_count ∨
              (a.retry_count = b.retry_count ∧ a.created_at ≤ b.created_at)))) := by
  constructor
  · calc (getSyncQueueRecords q limit).length
        = min limit (List.insertionSort queueOrder q).length := List.length_take _ _
      _ ≤ limit := min_le_left _ _
  · have hs : List.Sorted queueOrder (List.insertionSort queueOrder q) :=
      List.sorted_insertionSort queueOrder q
    exact List.Pairwise.sublist (List.take_sublist _ _) hs

/-- Row of the `patients` table (`src/services/offline_manager.py:105`):
`patient_id` is the PRIMARY KEY, `data` holds the JSON payload, `synced`
is the INTEGER flag (0 = pending, 1 = synced) modelled as a `Bool`. -/
structure PatientRow where
  patient_id : String
  data : String
  created_at : Nat
  updated_at : Nat
  synced : Bool
deriving DecidableEq, Repr

/-- Row of the `health_assessments` table
(`src/services/offline_manager.py:115`): `assessment_id` is the PRIMARY
KEY; the table has `created_at` but no `updated_at` column. -/
structure AssessmentRow where
  assessment_id : String
  patient_id : String
  data : String
  created_at : Nat
  synced : Bool
deriving DecidableEq, Repr

/-- The durable contents of the local SQLite database at
`local_db_path` (the `resources` table is independent of the record
claims and is not modelled).  All states the claims quantify over are
values of this type. -/
structure LocalDB where
  patients : List PatientRow
  assessments : List AssessmentRow
  sync_queue : List SyncQueueRow
deriving DecidableEq, Repr

/-- In-memory state of an `OfflineManager` instance together with its
local database: `sync_in_progress` is the single-flight gate set and
cleared by `sync_data`, `last_sync_time` mirrors `self.last_sync_time`. -/
structure ManagerState where
  ldb : LocalDB
  sync_in_progress : Bool
  last_sync_time : Option Nat
deriving DecidableEq, Repr

/-- Default sync priority for patients
(`sync_priorities.patients = 5` in `_load_config`). -/
def patientsPriority : Int := 5

/-- Default sync priority for health assessments
(`sync_priorities.health_assessments = 10` in `_load_config`). -/
def assessmentsPriority : Int := 10

/-- The `sync_id` generated by `_add_to_sync_queue`
(`src/services/offline_manager.py:269`):
`f"{record_type}_{record_id}_{int(time.time())}"`. -/
def mkSyncId (record_type record_id : String) (now : Nat) : String :=
  record_type ++ "_" ++ record_id ++ "_" ++ toString now

/-- Shallow embedding of `OfflineManager._add_to_sync_queue`
(`src/services/offline_manager.py:253`) acting on the queue table.
The `INSERT` fails (raising `sqlite3.IntegrityError`, caught by the
function's own `except`, which returns `False`) precisely when the
generated `sync_id` collides with the PRIMARY KEY of an existing row —
which happens when the same record is saved twice within the same
`int(time.time())` second.  On success the new row has `priority` as
given, `retry_count = 0` and NULL `last_attempt`/`error_message`. -/
def addToSyncQueue (record_type record_id data : String) (priority : Int) (now : Nat)
    (q : List SyncQueueRow) : List SyncQueueRow × Bool :=
  let sid := mkSyncId record_type record_id now
  if q.any (fun e => e.sync_id == sid) then (q, false)
  else (q ++ [⟨sid, record_type, record_id, data, priority, now, 0, none, none⟩], true)

/-- Upsert performed by `save_patient_offline`
(`src/services/offline_manager.py:177`): if a row with the id exists,
`UPDATE patients SET data = ?, updated_at = ?, synced = 0`; otherwise
`INSERT` a fresh row with `created_at = updated_at = now` and
`synced = 0`. -/
def upsertPatient (pid pdata : String) (now : Nat) (rows : List PatientRow) :
    List PatientRow :=
  if rows.any (fun r => r.patient_id == pid) then
    rows.map (fun r =>
      if r.patient_id == pid then
        { r with data := pdata, updated_at := now, synced := false }
      else r)
  else
    rows ++ [⟨pid, pdata, now, now, false⟩]

/-- Upsert performed by `save_assessment_offline`
(`src/services/offline_manager.py:223`): the `UPDATE` branch sets only
`data` and `synced = 0` (no timestamp column is touched); the `INSERT`
branch sets `created_at = now` and `synced = 0`. -/
def upsertAssessment (aid pid adata : String) (now : Nat) (rows : List AssessmentRow) :
    List AssessmentRow :=
  if rows.any (fun r => r.assessment_id == aid) then
    rows.map (fun r =>
      if r.assessment_id == aid then { r with data := adata, synced := false } else r)
  else
    rows ++ [⟨aid, pid, adata, now, false⟩]

/-- Fault scenarios for one execution of `save_patient_offline` or
`save_assessment_offline`.  The record upsert runs on one connection
whose transaction is committed only at the end of the function, while
`_add_to_sync_queue` opens a *second* connection and commits its own
`INSERT` immediately, so the two writes are separately durable:

- `ok`: every step succeeds.
- `enqueueFails`: the queue `INSERT` on the second connection raises
  (an I/O error — in particular `sqlite3` raises `database is locked`
  here whenever the first connection's uncommitted upsert still holds
  the write lock, which it does at this point) and is swallowed inside
  `_add_to_sync_queue`, which returns `False`; the caller ignores that
  return value, commits the upsert and returns `True`.
- `upsertRaises`: the record upsert itself raises; the outer `except`
  returns `False` and nothing was committed on either connection.
- `commitFails`: the final `conn.commit()` of the first connection
  raises after `_add_to_sync_queue` already committed the queue row; the
  outer `except` returns `False`, the upsert is rolled back but the
  queue row is durable. -/
inductive SaveFault where
  | ok
  | enqueueFails
  | upsertRaises
  | commitFails
deriving DecidableEq, Repr

/-- Shallow embedding of `OfflineManager.save_patient_offline`
(`src/services/offline_manager.py:160`) as a transition on the durable
database, returning the new database and the function's boolean result. -/
def savePatientOffline (now : Nat) (fault : SaveFault) (pid pdata : String)
    (db : LocalDB) : LocalDB × Bool :=
  match fault with
  | .upsertRaises => (db, false)
  | f =>
    let pts := upsertPatient pid pdata now db.patients
    let q :=
      if f = .enqueueFails then db.sync_queue
      else (addToSyncQueue "patient" pid pdata patientsPriority now db.sync_queue).1
    match f with
    | .commitFails => ({ db with sync_queue := q }, false)
    | _ => ({ db with patients := pts, sync_queue := q }, true)

/-- Shallow embedding of `OfflineManager.save_assessment_offline`
(`src/services/offline_manager.py:206`), structured exactly like
`savePatientOffline` but writing the `health_assessments` table and
enqueueing with the high assessment priority. -/
def saveAssessmentOffline (now : Nat) (fault : SaveFault) (aid pid adata : String)
    (db : LocalDB) : LocalDB × Bool :=
  match fault with
  | .upsertRaises => (db, false)
  | f =>
    let asms := upsertAssessment aid pid adata now db.assessments
    let q :=
      if f = .enqueueFails then db.sync_queue
      else (addToSyncQueue "health_assessment" aid adata assessmentsPriority now db.sync_queue).1
    match f with
    | .commitFails => ({ db with sync_queue := q }, false)
    | _ => ({ db with assessments := asms, sync_queue := q }, true)

/-- Shallow embedding of `OfflineManager.get_patient_offline`
(`src/services/offline_manager.py:285`): `SELECT data ... WHERE
patient_id = ?` with `fetchone`, i.e. the first matching row; any
exception (an I/O error, flagged here by `ioError`) is caught and the
function returns `None`, exactly as it does when no row matches. -/
def getPatientOffline (db : LocalDB) (pid : String) (ioError : Bool) :
    Option PatientRow :=
  if ioError then none
  else db.patients.find? (fun r => r.patient_id == pid)

/-- Environment of one `sync_data` pass: everything outside the local
database that the pass consults.

- `connected` is the value of `_check_connectivity` (which probes
  `self.db.is_connected` and catches its own exceptions).
- `now` is the wall-clock instant stamped into `last_attempt` and
  `last_sync_time`.
- `bodyRaises` models an unexpected exception reaching the outer
  `except` of `sync_data` (every mutating step inside the pass catches
  its own storage errors, so such an exception aborts the pass before
  any queue mutation and yields the error result, with the `finally`
  clause still clearing the gate).
- `parseOk r` tells whether `json.loads(record['data'])` succeeds for a
  queue row, and `attemptOk r` the boolean outcome of the remote
  dispatch `_sync_patient`/`_sync_assessment` (both of those catch all
  their exceptions and return a boolean).
- The three bookkeeping helpers each open their own connection, commit
  on their own, and swallow their own exceptions, so each can fail
  independently of the others: `attemptUpdateOk r` tells whether
  `_update_sync_attempt`'s UPDATE commits for row `r`, `statusUpdateOk
  r` whether `_update_sync_record_status`'s statement (the DELETE on
  success, the `error_message` UPDATE on failure) commits, and
  `markSyncedOk r` whether `_mark_record_synced`'s UPDATE commits.  A
  failed helper leaves its table untouched and the control flow
  continues as if it had succeeded. -/
structure Env where
  connected : Bool
  now : Nat
  bodyRaises : Option String
  parseOk : SyncQueueRow → Bool
  attemptOk : SyncQueueRow → Bool
  attemptUpdateOk : SyncQueueRow → Bool
  statusUpdateOk : SyncQueueRow → Bool
  markSyncedOk : SyncQueueRow → Bool

/-- Shallow embedding of `OfflineManager._update_sync_attempt`
(`src/services/offline_manager.py:654`): `UPDATE sync_queue SET
retry_count = retry_count + 1, last_attempt = ? WHERE sync_id = ?`. -/
def updateSyncAttempt (now : Nat) (sid : String) (q : List SyncQueueRow) :
    List SyncQueueRow :=
  q.map (fun r =>
    if r.sync_id == sid then
      { r with retry_count := r.retry_count + 1, last_attempt := some now }
    else r)

/-- Failure branch of `OfflineManager._update_sync_record_status`
(`src/services/offline_manager.py:692`): `UPDATE sync_queue SET
error_message = ? WHERE sync_id = ?`. -/
def setErrorMessage (msg : String) (sid : String) (q : List SyncQueueRow) :
    List SyncQueueRow :=
  q.map (fun r => if r.sync_id == sid then { r with error_message := some msg } else r)

/-- Success branch of `OfflineManager._update_sync_record_status`
(`src/services/offline_manager.py:690`): `DELETE FROM sync_queue WHERE
sync_id = ?`. -/
def deleteQueueEntry (sid : String) (q : List SyncQueueRow) : List SyncQueueRow :=
  q.filter (fun r => !(r.sync_id == sid))

/-- Shallow embedding of `OfflineManager._mark_record_synced`
(`src/services/offline_manager.py:703`): sets `synced = 1` on the row of
the matching table; any other `record_type` updates nothing. -/
def markRecordSynced (record_type record_id : String) (db : LocalDB) : LocalDB :=
  if record_type = "patient" then
    { db with patients := db.patients.map (fun r =>
        if r.patient_id == record_id then { r with synced := true } else r) }
  else if record_type = "health_assessment" then
    { db with assessments := db.assessments.map (fun r =>
        if r.assessment_id == record_id then { r with synced := true } else r) }
  else db

/-- The effect of the `_update_sync_attempt` call for row `r`: the
bookkeeping UPDATE when its own connection commits, the unchanged queue
when its swallowed exception fires. -/
def bookkeepQueue (env : Env) (r : SyncQueueRow) (q : List SyncQueueRow) :
    List SyncQueueRow :=
  if env.attemptUpdateOk r then updateSyncAttempt env.now r.sync_id q else q

/-- The effect of the `_mark_record_synced` call for row `r`: the
`synced = 1` UPDATE when its own connection commits, the unchanged
database when its swallowed exception fires. -/
def markStep (env : Env) (r : SyncQueueRow) (db : LocalDB) : LocalDB :=
  if env.markSyncedOk r then markRecordSynced r.record_type r.record_id db else db

/-- Shallow embedding of `OfflineManager._sync_record`
(`src/services/offline_manager.py:519`) for one queue row `r`:

- `json.loads` fails: the row's own `except` stores the error message
  via `_update_sync_record_status(sync_id, False, str(e))` (a no-op when
  that helper's own connection fails) and returns `False`;
  `retry_count` is *not* incremented because the raise happens before
  `_update_sync_attempt`.
- otherwise `_update_sync_attempt` bumps `retry_count`/`last_attempt`
  (no-op if its connection fails); an unknown `record_type` just
  returns `False`; a falsy dispatch result returns `False` *without*
  touching `error_message` (only the exception path writes it); a
  truthy dispatch runs `_update_sync_record_status(sync_id, True)` —
  the queue DELETE, separately committed and a no-op on its swallowed
  failure — and then `_mark_record_synced` — the `synced = 1` UPDATE on
  yet another connection, again a no-op on its swallowed failure — and
  returns `True` regardless of whether either helper committed. -/
def syncRecord (env : Env) (db : LocalDB) (r : SyncQueueRow) : LocalDB × Bool :=
  if env.parseOk r = false then
    ({ db with sync_queue :=
        if env.statusUpdateOk r then setErrorMessage "parse error" r.sync_id db.sync_queue
        else db.sync_queue },
      false)
  else if r.record_type = "patient" ∨ r.record_type = "health_assessment" then
    if env.attemptOk r then
      (markStep env r
        { db with sync_queue :=
            if env.statusUpdateOk r then
              deleteQueueEntry r.sync_id (bookkeepQueue env r db.sync_queue)
            else bookkeepQueue env r db.sync_queue },
        true)
    else ({ db with sync_queue := bookkeepQueue env r db.sync_queue }, false)
  else ({ db with sync_queue := bookkeepQueue env r db.sync_queue }, false)

/-- One iteration of the per-record loop of `OfflineManager.sync_data`
(`src/services/offline_manager.py:444`): run `_sync_record` on the
current database and bump the synced or the failed counter. -/
def syncStep (env : Env) (acc : LocalDB × Nat × Nat) (r : SyncQueueRow) :
    LocalDB × Nat × Nat :=
  let s := syncRecord env acc.1 r
  if s.2 then (s.1, acc.2.1 + 1, acc.2.2) else (s.1, acc.2.1, acc.2.2 + 1)

/-- The per-record loop of `OfflineManager.sync_data`
(`src/services/offline_manager.py:444`): iterates over the batch fetched
once at the start of the pass, threading the database and counting
synced and failed records. -/
def syncPassBody (env : Env) (db : LocalDB) (batch : List SyncQueueRow) :
    LocalDB × Nat × Nat :=
  batch.foldl (syncStep env) (db, 0, 0)

/-- The dictionary returned by `OfflineManager.sync_data`.  The Python
dict carries the `failed_records` and `sync_time` keys only on the
successful-pass return; the early returns contain just `success`,
`message` and `synced_records`, so those two fields are `Option`s that
are `none` exactly when the key is absent. -/
structure SyncResult where
  success : Bool
  message : String
  synced_records : Nat
  failed_records : Option Nat
  sync_time : Option Nat
deriving DecidableEq, Repr

/-- Shallow embedding of `OfflineManager.sync_data`
(`src/services/offline_manager.py:411`):

- if `sync_in_progress` is set, return the `Sync already in progress`
  dict immediately, touching nothing;
- otherwise set the gate; an unexpected exception lands in the outer
  `except` (error dict) and the `finally` clears the gate;
- no connectivity: clear the gate and return the no-connectivity dict,
  the queue untouched;
- otherwise drain a batch of (at most) 50 rows via `syncPassBody`, set
  `last_sync_time`, clear the gate (`finally`) and return the success
  dict with both counters. -/
def syncData (env : Env) (s : ManagerState) : ManagerState × SyncResult :=
  if s.sync_in_progress then
    (s, ⟨false, "Sync already in progress", 0, none, none⟩)
  else
    match env.bodyRaises with
    | some msg =>
      ({ s with sync_in_progress := false }, ⟨false, "Sync error: " ++ msg, 0, none, none⟩)
    | none =>
      if env.connected = false then
        ({ s with sync_in_progress := false },
          ⟨false, "No connectivity to central database", 0, none, none⟩)
      else
        let res := syncPassBody env s.ldb (getSyncQueueRecords s.ldb.sync_queue 50)
        (⟨res.1, false, some env.now⟩,
          ⟨true,
            "Sync completed: " ++ toString res.2.1 ++ " synced, " ++
              toString res.2.2 ++ " failed",
            res.2.1, some res.2.2, some env.now⟩)

/-- Shallow embedding of `OfflineManager._clean_old_synced_records`
(`src/services/offline_manager.py:766`): delete synced assessments with
`created_at < cutoff`; then compute the patients having an assessment
with `created_at >= cutoff` (the query runs after the assessment
deletion, which only removed rows with `created_at < cutoff`, so the set
is the same as over the original table); then delete synced patients
with `updated_at < cutoff` that are not in that set.  The source's two
SQL branches (non-empty vs empty `recent_patient_ids`) both implement
this single filter. -/
def cleanOldSyncedRecords (cutoff : Nat) (db : LocalDB) : LocalDB :=
  let assessments' := db.assessments.filter
    (fun a => !(a.synced && decide (a.created_at < cutoff)))
  let recent := fun pid => assessments'.any
    (fun a => a.patient_id == pid && decide (cutoff ≤ a.created_at))
  { db with
    assessments := assessments',
    patients := db.patients.filter
      (fun p => !(p.synced && decide (p.updated_at < cutoff) && !recent p.patient_id)) }

/-- Shallow embedding of `OfflineManager._manage_storage`
(`src/services/offline_manager.py:748`) restricted to the record tables:
the sweep `_clean_old_synced_records` runs exactly when
`db_size_mb > max_storage_size_mb * 0.9`, i.e. (in bytes, exactly) when
`sizeBytes * 10 > capMB * 1048576 * 9`.  The `_clean_old_resources` call
only touches the unmodelled `resources` table. -/
def manageStorage (sizeBytes capMB cutoff : Nat) (db : LocalDB) : LocalDB :=
  if capMB * 1048576 * 9 < sizeBytes * 10 then cleanOldSyncedRecords cutoff db else db

/-- C3: whenever a sync pass is already in flight (`sync_in_progress`
set), a further call of `sync_data` returns at once with the
`Sync already in progress` result, mutating no state at all — in
particular no queue entry and no `retry_count`. -/
theorem syncData_reentrant_returns_immediately (env : Env) (s : ManagerState)
    (h : s.sync_in_progress = true) :
    (syncData env s).1 = s ∧
      (syncData env s).1.ldb.sync_queue = s.ldb.sync_queue ∧
      (syncData env s).2 = ⟨false, "Sync already in progress", 0, none, none⟩ := by
  simp [syncData, h]

/-- C3, witness: the in-flight gate check at a concrete state holding
one queue entry. -/
theorem syncData_reentrant_returns_immediately_witness :
    ((⟨⟨[], [], [⟨"s", "patient", "p", "d", 5, 0, 0, none, none⟩]⟩, true, none⟩ :
        ManagerState).sync_in_progress = true) ∧
      ((syncData ⟨true, 7, none, fun _ => true, fun _ => true, fun _ => true, fun _ => true, fun _ => true⟩
          ⟨⟨[], [], [⟨"s", "patient", "p", "d", 5, 0, 0, none, none⟩]⟩, true, none⟩).1 =
        ⟨⟨[], [], [⟨"s", "patient", "p", "d", 5, 0, 0, none, none⟩]⟩, true, none⟩ ∧
      (syncData ⟨true, 7, none, fun _ => true, fun _ => true, fun _ => true, fun _ => true, fun _ => true⟩
          ⟨⟨[], [], [⟨"s", "patient", "p", "d", 5, 0, 0, none, none⟩]⟩, true, none⟩).1.ldb.sync_queue =
        [⟨"s", "patient", "p", "d", 5, 0, 0, none, none⟩] ∧
      (syncData ⟨true, 7, none, fun _ => true, fun _ => true, fun _ => true, fun _ => true, fun _ => true⟩
          ⟨⟨[], [], [⟨"s", "patient", "p", "d", 5, 0, 0, none, none⟩]⟩, true, none⟩).2 =
        ⟨false, "Sync already in progress", 0, none, none⟩) :=
  ⟨rfl, syncData_reentrant_returns_immediately _ _ rfl⟩

/-- C10: every invocation of `sync_data` that starts from a released
gate ends with the gate released again, on every path — re-entrancy
aside, the `finally` clause (and the explicit reset on the
no-connectivity return) clears `sync_in_progress` on the successful
path, the no-connectivity early return and the exception path alike. -/
theorem syncData_releases_gate (env : Env) (s : ManagerState)
    (h : s.sync_in_progress = false) :
    (syncData env s).1.sync_in_progress = false := by
  rcases hb : env.bodyRaises with _ | msg
  · by_cases hc : env.connected = false <;> simp [syncData, h, hb, hc]
  · simp [syncData, h, hb]

/-- C10, witness: a full connected pass over a one-entry queue releases
the gate. -/
theorem syncData_releases_gate_witness :
    ((⟨⟨[], [], [⟨"s", "patient", "p", "d", 5, 0, 0, none, none⟩]⟩, false, none⟩ :
        ManagerState).sync_in_progress = false) ∧
      (syncData ⟨true, 7, none, fun _ => true, fun _ => true, fun _ => true, fun _ => true, fun _ => true⟩
          ⟨⟨[], [], [⟨"s", "patient", "p", "d", 5, 0, 0, none, none⟩]⟩, false, none⟩).1.sync_in_progress =
        false :=
  ⟨rfl, syncData_releases_gate _ _ rfl⟩

/-- C7, counterexample: the no-connectivity early return of `sync_data`
is `{'success': False, 'message': ..., 'synced_records': 0}` — it has no
`failed_records` key at all, while the claim (and spec property P7)
demands that the result report zero failed records (`failed: 0`).  At a
concrete idle state with one queued entry and the connectivity probe
false, the returned `failed_records` field is absent, not zero. -/
theorem syncData_offline_missing_failed_count :
    (syncData ⟨false, 7, none, fun _ => true, fun _ => true, fun _ => true, fun _ => true, fun _ => true⟩
        ⟨⟨[], [], [⟨"s", "patient", "p", "d", 5, 0, 0, none, none⟩]⟩, false, none⟩).2.failed_records =
      none ∧
      (syncData ⟨false, 7, none, fun _ => true, fun _ => true, fun _ => true, fun _ => true, fun _ => true⟩
          ⟨⟨[], [], [⟨"s", "patient", "p", "d", 5, 0, 0, none, none⟩]⟩, false, none⟩).2.failed_records ≠
        some 0 := by
  constructor <;> simp [syncData]

/-- C7, amended: a sync pass triggered while the connectivity probe
reports offline terminates immediately with the no-connectivity result —
`success = False`, `synced_records = 0` and *no* `failed_records` field —
and leaves the entire local database (in particular every queue entry's
`retry_count`, `last_attempt` and `error_message`) unchanged. -/
theorem syncData_offline_noop (env : Env) (s : ManagerState)
    (h1 : s.sync_in_progress = false) (h2 : env.connected = false)
    (h3 : env.bodyRaises = none) :
    (syncData env s).1.ldb = s.ldb ∧
      (syncData env s).1 = { s with sync_in_progress := false } ∧
      (syncData env s).2 = ⟨false, "No connectivity to central database", 0, none, none⟩ := by
  simp [syncData, h1, h2, h3]

/-- C7, witness: the offline no-op at a concrete idle state with one
queued entry. -/
theorem syncData_offline_noop_witness :
    ((⟨⟨[], [], [⟨"s", "patient", "p", "d", 5, 0, 3, none, none⟩]⟩, false, none⟩ :
        ManagerState).sync_in_progress = false) ∧
      ((syncData ⟨false, 7, none, fun _ => true, fun _ => true, fun _ => true, fun _ => true, fun _ => true⟩
          ⟨⟨[], [], [⟨"s", "patient", "p", "d", 5, 0, 3, none, none⟩]⟩, false, none⟩).1.ldb =
        ⟨[], [], [⟨"s", "patient", "p", "d", 5, 0, 3, none, none⟩]⟩ ∧
      (syncData ⟨false, 7, none, fun _ => true, fun _ => true, fun _ => true, fun _ => true, fun _ => true⟩
          ⟨⟨[], [], [⟨"s", "patient", "p", "d", 5, 0, 3, none, none⟩]⟩, false, none⟩).1 =
        ⟨⟨[], [], [⟨"s", "patient", "p", "d", 5, 0, 3, none, none⟩]⟩, false, none⟩ ∧
      (syncData ⟨false, 7, none, fun _ => true, fun _ => true, fun _ => true, fun _ => true, fun _ => true⟩
          ⟨⟨[], [], [⟨"s", "patient", "p", "d", 5, 0, 3, none, none⟩]⟩, false, none⟩).2 =
        ⟨false, "No connectivity to central database", 0, none, none⟩) :=
  ⟨rfl, syncData_offline_noop _ _ rfl rfl rfl⟩

/-- C8, counterexample: a storage I/O error during
`get_patient_offline` is swallowed by the function's `except` clause and
surfaces as `None` — byte-for-byte the same result as a successful read
of an id that is not stored.  Here the faulty read of the *existing*
patient `p1` equals the successful not-found read of `absent`, so the
error is conflated with a successful not-found result, and no
`StorageError` exists anywhere in the source. -/
theorem getPatientOffline_error_conflates_notfound :
    getPatientOffline ⟨[⟨"p1", "d", 0, 0, false⟩], [], []⟩ "p1" true =
        getPatientOffline ⟨[⟨"p1", "d", 0, 0, false⟩], [], []⟩ "absent" false ∧
      getPatientOffline ⟨[⟨"p1", "d", 0, 0, false⟩], [], []⟩ "p1" true = none := by
  decide

/-- C8, amended: a storage error during a save is reported to the caller
only as a `False` return value (no `StorageError` is raised), and a
storage error during a read is swallowed and returned as `None`,
indistinguishable from a successful not-found lookup. -/
theorem storage_errors_reported_amended (db : LocalDB) (now : Nat)
    (pid pdata qid : String) :
    savePatientOffline now .upsertRaises pid pdata db = (db, false) ∧
      getPatientOffline db qid true = none :=
  ⟨rfl, rfl⟩

/-- C4, counterexample: `save_patient_offline` commits the record upsert
and the queue `INSERT` on two different connections, and a failure of
`_add_to_sync_queue` (its `except` returns `False`, which the caller
ignores) still lets the record commit.  Starting from an empty database,
a save whose queue insert fails yields `True`, a stored pending patient
row, and an *empty* sync queue — the record row was updated but the
corresponding queue entry is missing, which the claim says can never
happen. -/
theorem savePatientOffline_not_atomic :
    (savePatientOffline 0 .enqueueFails "p1" "d" ⟨[], [], []⟩).2 = true ∧
      (savePatientOffline 0 .enqueueFails "p1" "d" ⟨[], [], []⟩).1.patients =
        [⟨"p1", "d", 0, 0, false⟩] ∧
      (savePatientOffline 0 .enqueueFails "p1" "d" ⟨[], [], []⟩).1.sync_queue = [] := by
  decide

/-- C4, amended: only in an execution where no step of the save faults
(and the generated `sync_id` does not collide with an existing queue
row) does `save_patient_offline` apply both effects: it returns `True`,
the patients table holds a pending row with the saved id and payload,
and exactly the one new queue entry is appended.  Under an enqueue fault
the record commits without the queue entry (see the counterexample), so
the two writes are not one logical transaction. -/
theorem savePatientOffline_applies_both_without_fault (now : Nat)
    (pid pdata : String) (db : LocalDB)
    (h : ∀ e ∈ db.sync_queue, e.sync_id ≠ mkSyncId "patient" pid now) :
    (savePatientOffline now .ok pid pdata db).2 = true ∧
      (∃ r ∈ (savePatientOffline now .ok pid pdata db).1.patients,
        r.patient_id = pid ∧ r.data = pdata ∧ r.synced = false) ∧
      (savePatientOffline now .ok pid pdata db).1.sync_queue =
        db.sync_queue ++
          [⟨mkSyncId "patient" pid now, "patient", pid, pdata,
            patientsPriority, now, 0, none, none⟩] := by
  have hq : (db.sync_queue.any fun e => e.sync_id == mkSyncId "patient" pid now) = false := by
    rw [List.any_eq_false]
    intro e he
    simpa using h e he
  refine ⟨rfl, ?_, ?_⟩
  · show ∃ r ∈ upsertPatient pid pdata now db.patients, _
    unfold upsertPatient
    by_cases hex : (db.patients.any fun r => r.patient_id == pid) = true
    · rw [if_pos hex]
      obtain ⟨r₀, hr₀, hr₀id⟩ := List.any_eq_true.mp hex
      refine ⟨{ r₀ with data := pdata, updated_at := now, synced := false },
        ?_, by simpa using hr₀id, rfl, rfl⟩
      have : (fun r => if r.patient_id == pid then
          { r with data := pdata, updated_at := now, synced := false } else r) r₀ =
          { r₀ with data := pdata, updated_at := now, synced := false } := by
        simp [hr₀id]
      exact this ▸ List.mem_map_of_mem _ hr₀
    · rw [if_neg hex]
      exact ⟨⟨pid, pdata, now, now, false⟩, List.mem_append_right _ (by simp), rfl, rfl, rfl⟩
  · show ({ db with patients := _, sync_queue := _ } : LocalDB).sync_queue = _
    simp [addToSyncQueue, hq]

/-- C4, witness: a fault-free save into an empty database applies both
the record upsert and the queue entry. -/
theorem savePatientOffline_applies_both_without_fault_witness :
    (∀ e ∈ (⟨[], [], []⟩ : LocalDB).sync_queue, e.sync_id ≠ mkSyncId "patient" "p1" 0) ∧
      ((savePatientOffline 0 .ok "p1" "d" ⟨[], [], []⟩).2 = true ∧
      (∃ r ∈ (savePatientOffline 0 .ok "p1" "d" ⟨[], [], []⟩).1.patients,
        r.patient_id = "p1" ∧ r.data = "d" ∧ r.synced = false) ∧
      (savePatientOffline 0 .ok "p1" "d" ⟨[], [], []⟩).1.sync_queue =
        [] ++
          [⟨mkSyncId "patient" "p1" 0, "patient", "p1", "d",
            patientsPriority, 0, 0, none, none⟩]) :=
  ⟨by simp, savePatientOffline_applies_both_without_fault 0 "p1" "d" ⟨[], [], []⟩ (by simp)⟩

/-- Deleting the assessments older than the cutoff does not change which
patients have an assessment at or after the cutoff: the deleted rows all
have `created_at < cutoff`. -/
theorem any_recent_filter (cutoff : Nat) (pid : String) (l : List AssessmentRow) :
    ((l.filter fun a => !(a.synced && decide (a.created_at < cutoff))).any
        fun a => a.patient_id == pid && decide (cutoff ≤ a.created_at)) =
      (l.any fun a => a.patient_id == pid && decide (cutoff ≤ a.created_at)) := by
  induction l with
  | nil => rfl
  | cons a l ih =>
    simp only [List.filter_cons, List.any_cons]
    by_cases hkeep : (!(a.synced && decide (a.created_at < cutoff))) = true
    · rw [if_pos hkeep, List.any_cons, ih]
    · rw [if_neg hkeep, ih]
      have hx : (a.synced && decide (a.created_at < cutoff)) = true := by
        simpa using hkeep
      have hold : a.created_at < cutoff := of_decide_eq_true (Bool.and_eq_true _ _ |>.mp hx).2
      simp [Nat.not_le.mpr hold]

/-- C9: when the retention sweep runs with on-disk size above 90% of the
configured cap, every synced assessment created before the cutoff is
deleted and every pending assessment is kept; a synced patient older
than the cutoff is kept iff it has an assessment with `created_at` at or
after the cutoff, and every pending patient is kept. -/
theorem manageStorage_retention (sizeBytes capMB cutoff : Nat) (db : LocalDB)
    (h : capMB * 1048576 * 9 < sizeBytes * 10) :
    (∀ a ∈ db.assessments, a.synced = true → a.created_at < cutoff →
        a ∉ (manageStorage sizeBytes capMB cutoff db).assessments) ∧
      (∀ a ∈ db.assessments, a.synced = false →
        a ∈ (manageStorage sizeBytes capMB cutoff db).assessments) ∧
      (∀ p ∈ db.patients, p.synced = true → p.updated_at < cutoff →
        (p ∈ (manageStorage sizeBytes capMB cutoff db).patients ↔
          ∃ a ∈ db.assessments, a.patient_id = p.patient_id ∧ cutoff ≤ a.created_at)) ∧
      (∀ p ∈ db.patients, p.synced = false →
        p ∈ (manageStorage sizeBytes capMB cutoff db).patients) := by
  rw [manageStorage, if_pos h]
  refine ⟨?_, ?_, ?_, ?_⟩
  · intro a ha hs hold
    simp [cleanOldSyncedRecords, List.mem_filter, hs, hold]
  · intro a ha hs
    simp [cleanOldSyncedRecords, List.mem_filter, hs, ha]
  · intro p hp hs hold
    simp only [cleanOldSyncedRecords, List.mem_filter]
    rw [any_recent_filter]
    simp [hp, hs, hold, List.any_eq_true]
  · intro p hp hs
    simp [cleanOldSyncedRecords, List.mem_filter, hp, hs]

/-- C9, witness: a sweep over a database holding an old synced
assessment, an old synced patient with no recent assessment, an old
synced patient kept alive by one recent assessment, and a pending
patient, with the size 1000000000 bytes above 90% of a 100 MB cap. -/
theorem manageStorage_retention_witness :
    100 * 1048576 * 9 < 1000000000 * 10 ∧
      ((∀ a ∈ (⟨[⟨"pOld", "d", 0, 0, true⟩, ⟨"pKeep", "d", 0, 0, true⟩,
            ⟨"pPend", "d", 0, 0, false⟩],
          [⟨"aOld", "pOld", "d", 0, true⟩, ⟨"aNew", "pKeep", "d", 100, true⟩],
          []⟩ : LocalDB).assessments, a.synced = true → a.created_at < 50 →
          a ∉ (manageStorage 1000000000 100 50
            ⟨[⟨"pOld", "d", 0, 0, true⟩, ⟨"pKeep", "d", 0, 0, true⟩,
              ⟨"pPend", "d", 0, 0, false⟩],
            [⟨"aOld", "pOld", "d", 0, true⟩, ⟨"aNew", "pKeep", "d", 100, true⟩],
            []⟩).assessments) ∧
      (∀ a ∈ (⟨[⟨"pOld", "d", 0, 0, true⟩, ⟨"pKeep", "d", 0, 0, true⟩,
            ⟨"pPend", "d", 0, 0, false⟩],
          [⟨"aOld", "pOld", "d", 0, true⟩, ⟨"aNew", "pKeep", "d", 100, true⟩],
          []⟩ : LocalDB).assessments, a.synced = false →
          a ∈ (manageStorage 1000000000 100 50
            ⟨[⟨"pOld", "d", 0, 0, true⟩, ⟨"pKeep", "d", 0, 0, true⟩,
              ⟨"pPend", "d", 0, 0, false⟩],
            [⟨"aOld", "pOld", "d", 0, true⟩, ⟨"aNew", "pKeep", "d", 100, true⟩],
            []⟩).assessments) ∧
      (∀ p ∈ (⟨[⟨"pOld", "d", 0, 0, true⟩, ⟨"pKeep", "d", 0, 0, true⟩,
            ⟨"pPend", "d", 0, 0, false⟩],
          [⟨"aOld", "pOld", "d", 0, true⟩, ⟨"aNew", "pKeep", "d", 100, true⟩],
          []⟩ : LocalDB).patients, p.synced = true → p.updated_at < 50 →
          (p ∈ (manageStorage 1000000000 100 50
            ⟨[⟨"pOld", "d", 0, 0, true⟩, ⟨"pKeep", "d", 0, 0, true⟩,
              ⟨"pPend", "d", 0, 0, false⟩],
            [⟨"aOld", "pOld", "d", 0, true⟩, ⟨"aNew", "pKeep", "d", 100, true⟩],
            []⟩).patients ↔
            ∃ a ∈ (⟨[⟨"pOld", "d", 0, 0, true⟩, ⟨"pKeep", "d", 0, 0, true⟩,
                ⟨"pPend", "d", 0, 0, false⟩],
              [⟨"aOld", "pOld", "d", 0, true⟩, ⟨"aNew", "pKeep", "d", 100, true⟩],
              []⟩ : LocalDB).assessments, a.patient_id = p.patient_id ∧ 50 ≤ a.created_at)) ∧
      (∀ p ∈ (⟨[⟨"pOld", "d", 0, 0, true⟩, ⟨"pKeep", "d", 0, 0, true⟩,
            ⟨"pPend", "d", 0, 0, false⟩],
          [⟨"aOld", "pOld", "d", 0, true⟩, ⟨"aNew", "pKeep", "d", 100, true⟩],
          []⟩ : LocalDB).patients, p.synced = false →
          p ∈ (manageStorage 1000000000 100 50
            ⟨[⟨"pOld", "d", 0, 0, true⟩, ⟨"pKeep", "d", 0, 0, true⟩,
              ⟨"pPend", "d", 0, 0, false⟩],
            [⟨"aOld", "pOld", "d", 0, true⟩, ⟨"aNew", "pKeep", "d", 100, true⟩],
            []⟩).patients)) :=
  ⟨by norm_num, manageStorage_retention 1000000000 100 50 _ (by norm_num)⟩

end OfflineManager

namespace SyncService

/-- Classification of one `_sync_with_server` call for a pending row, as
consumed by `SyncService.sync_data` (`src/services/sync_service.py:205`):
a truthy `success`, or a failure whose `permanent_failure` flag is set
(the source sets it when the error text contains `invalid data format`)
or clear (transient). -/
inductive Outcome where
  | success
  | transientFailure
  | permanentFailure
deriving DecidableEq, Repr

/-- Row of the `sync_data` table created by `_init_local_db`
(`src/services/sync_service.py:347`): `sync_id` is the PRIMARY KEY and
`status` ranges over `pending`, `synced` and `failed`. -/
structure SDRow where
  sync_id : String
  data_type : String
  data : String
  status : String
  created_at : Nat
  modified_at : Nat
deriving DecidableEq, Repr

/-- The ordering of the pending-row query of `sync_data`
(`ORDER BY created_at ASC`, `src/services/sync_service.py:188`). -/
def createdOrder (a b : SDRow) : Prop := a.created_at ≤ b.created_at

instance : DecidableRel createdOrder := fun a b => by
  unfold createdOrder; infer_instance

instance : IsTotal SDRow createdOrder := ⟨by intro a b; unfold createdOrder; omega⟩

instance : IsTrans SDRow createdOrder := ⟨by intro a b c; unfold createdOrder; omega⟩

/-- The dequeue query of `SyncService.sync_data`
(`src/services/sync_service.py:187`): `SELECT * FROM sync_data WHERE
status = 'pending' ORDER BY created_at ASC` — the dequeue-eligible pool,
with no `LIMIT` clause. -/
def pendingRows (rows : List SDRow) : List SDRow :=
  List.insertionSort createdOrder (rows.filter fun r => r.status == "pending")

/-- The per-row update applied by the loop of `SyncService.sync_data`
(`src/services/sync_service.py:205`): a pending row becomes `synced` on
success and `failed` on a permanent failure (both stamping
`modified_at`), and is left untouched on a transient failure; non-pending
rows are not selected by the query and are untouched.  Because `sync_id`
is the PRIMARY KEY, the `UPDATE ... WHERE sync_id = ?` statements of the
loop act pointwise on the rows. -/
def stepRow (outcome : SDRow → Outcome) (now : Nat) (r : SDRow) : SDRow :=
  if r.status = "pending" then
    match outcome r with
    | .success => { r with status := "synced", modified_at := now }
    | .permanentFailure => { r with status := "failed", modified_at := now }
    | .transientFailure => r
  else r

/-- Shallow embedding of `SyncService._cleanup_old_data`
(`src/services/sync_service.py:393`): `DELETE FROM sync_data WHERE
status = 'synced' AND modified_at < ?` with the retention cutoff. -/
def cleanupOldData (cutoff : Nat) (rows : List SDRow) : List SDRow :=
  rows.filter fun r => !(r.status == "synced" && decide (r.modified_at < cutoff))

/-- Shallow embedding of the queue-state effect of one
`SyncService.sync_data` pass (`src/services/sync_service.py:164`): every
pending row is attempted (in `created_at` order, which does not affect
the resulting table because each update is per-row), then
`_cleanup_old_data` prunes old synced rows. -/
def syncPass (outcome : SDRow → Outcome) (now cutoff : Nat) (rows : List SDRow) :
    List SDRow :=
  cleanupOldData cutoff (rows.map (stepRow outcome now))

/-- Shallow embedding of `SyncService.retry_failed_sync`
(`src/services/sync_service.py:300`): `UPDATE sync_data SET
status = 'pending', modified_at = ? WHERE status = 'failed'`, returning
the updated table and `cursor.rowcount`, the number of rows reset. -/
def retryFailed (now : Nat) (rows : List SDRow) : List SDRow × Nat :=
  (rows.map fun r =>
      if r.status = "failed" then { r with status := "pending", modified_at := now } else r,
    (rows.filter fun r => r.status == "failed").length)

/-- The row value a pending row takes after a permanently-failed attempt
stamped at `now`. -/
def afterFail (r : SDRow) (now : Nat) : SDRow :=
  { r with status := "failed", modified_at := now }

end SyncService

namespace SyncService

/-- C6: a pending entry whose attempt fails with a permanently-classified
error is retained with status `failed` (stamped at `now`) rather than
deleted; it is excluded from the dequeue-eligible pool (the
pending-status query) of this and every later pass, and it survives
later passes unchanged; an explicit `retry_failed` call resets it to
`pending`, making it dequeue-eligible again, and reports the number of
failed entries so reset. -/
theorem permanent_failure_excluded_until_retry
    (outcome outcome2 : SDRow → Outcome) (now now2 now3 cutoff cutoff2 : Nat)
    (rows : List SDRow) (r : SDRow) (hmem : r ∈ rows)
    (hpending : r.status = "pending") (hperm : outcome r = .permanentFailure) :
    afterFail r now ∈ syncPass outcome now cutoff rows ∧
      (∀ s ∈ pendingRows (syncPass outcome now cutoff rows), s.status ≠ "failed") ∧
      afterFail r now ∉ pendingRows (syncPass outcome now cutoff rows) ∧
      afterFail r now ∈ syncPass outcome2 now2 cutoff2 (syncPass outcome now cutoff rows) ∧
      afterFail r now ∉
        pendingRows (syncPass outcome2 now2 cutoff2 (syncPass outcome now cutoff rows)) ∧
      { afterFail r now with status := "pending", modified_at := now3 } ∈
        (retryFailed now3 (syncPass outcome now cutoff rows)).1 ∧
      { afterFail r now with status := "pending", modified_at := now3 } ∈
        pendingRows (retryFailed now3 (syncPass outcome now cutoff rows)).1 ∧
      (retryFailed now3 (syncPass outcome now cutoff rows)).2 =
        ((syncPass outcome now cutoff rows).filter fun s => s.status == "failed").length := by
  have hstatus : (afterFail r now).status = "failed" := rfl
  have hstep : stepRow outcome now r = afterFail r now := by
    simp [stepRow, hpending, hperm, afterFail]
  have hmem1 : afterFail r now ∈ syncPass outcome now cutoff rows := by
    refine List.mem_filter.mpr ⟨?_, by simp [hstatus]⟩
    exact hstep ▸ List.mem_map_of_mem _ hmem
  have hpend_status : ∀ (l : List SDRow) (s : SDRow), s ∈ pendingRows l →
      s.status = "pending" := by
    intro l s hs
    have hs' : s ∈ l.filter fun t => t.status == "pending" :=
      (List.perm_insertionSort createdOrder _).mem_iff.mp hs
    simpa using (List.mem_filter.mp hs').2
  have hnotpend : ∀ (l : List SDRow), afterFail r now ∉ pendingRows l := by
    intro l hc
    have := hpend_status l _ hc
    rw [hstatus] at this
    exact absurd this (by decide)
  have hmem2 : afterFail r now ∈
      syncPass outcome2 now2 cutoff2 (syncPass outcome now cutoff rows) := by
    have hfix : stepRow outcome2 now2 (afterFail r now) = afterFail r now := by
      simp [stepRow, hstatus]
    refine List.mem_filter.mpr ⟨?_, by simp [hstatus]⟩
    exact hfix ▸ List.mem_map_of_mem _ hmem1
  have hreset : { afterFail r now with status := "pending", modified_at := now3 } ∈
      (retryFailed now3 (syncPass outcome now cutoff rows)).1 := by
    have himg : (fun s => if s.status = "failed"
          then { s with status := "pending", modified_at := now3 } else s)
        (afterFail r now) =
        { afterFail r now with status := "pending", modified_at := now3 } := by
      simp [hstatus]
    exact himg ▸ List.mem_map_of_mem _ hmem1
  refine ⟨hmem1, fun s hs => ?_, hnotpend _, hmem2, hnotpend _, hreset, ?_, rfl⟩
  · rw [hpend_status _ s hs]; decide
  · refine (List.perm_insertionSort createdOrder _).mem_iff.mpr ?_
    exact List.mem_filter.mpr ⟨hreset, by simp⟩

/-- C6, witness: one pending row, an outcome classifying its failure as
permanent, a second pass, and the administrative retry. -/
theorem permanent_failure_excluded_until_retry_witness :
    (⟨"s1", "patient", "d", "pending", 0, 0⟩ : SDRow) ∈
        [(⟨"s1", "patient", "d", "pending", 0, 0⟩ : SDRow)] ∧
      (⟨"s1", "patient", "d", "pending", 0, 0⟩ : SDRow).status = "pending" ∧
      ((fun _ => Outcome.permanentFailure) (⟨"s1", "patient", "d", "pending", 0, 0⟩ : SDRow) =
        Outcome.permanentFailure) ∧
      (afterFail ⟨"s1", "patient", "d", "pending", 0, 0⟩ 1 ∈
        syncPass (fun _ => Outcome.permanentFailure) 1 0
          [⟨"s1", "patient", "d", "pending", 0, 0⟩] ∧
      (∀ s ∈ pendingRows (syncPass (fun _ => Outcome.permanentFailure) 1 0
          [⟨"s1", "patient", "d", "pending", 0, 0⟩]), s.status ≠ "failed") ∧
      afterFail ⟨"s1", "patient", "d", "pending", 0, 0⟩ 1 ∉
        pendingRows (syncPass (fun _ => Outcome.permanentFailure) 1 0
          [⟨"s1", "patient", "d", "pending", 0, 0⟩]) ∧
      afterFail ⟨"s1", "patient", "d", "pending", 0, 0⟩ 1 ∈
        syncPass (fun _ => Outcome.success) 2 0
          (syncPass (fun _ => Outcome.permanentFailure) 1 0
            [⟨"s1", "patient", "d", "pending", 0, 0⟩]) ∧
      afterFail ⟨"s1", "patient", "d", "pending", 0, 0⟩ 1 ∉
        pendingRows (syncPass (fun _ => Outcome.success) 2 0
          (syncPass (fun _ => Outcome.permanentFailure) 1 0
            [⟨"s1", "patient", "d", "pending", 0, 0⟩])) ∧
      { afterFail ⟨"s1", "patient", "d", "pending", 0, 0⟩ 1 with
          status := "pending", modified_at := 3 } ∈
        (retryFailed 3 (syncPass (fun _ => Outcome.permanentFailure) 1 0
          [⟨"s1", "patient", "d", "pending", 0, 0⟩])).1 ∧
      { afterFail ⟨"s1", "patient", "d", "pending", 0, 0⟩ 1 with
          status := "pending", modified_at := 3 } ∈
        pendingRows (retryFailed 3 (syncPass (fun _ => Outcome.permanentFailure) 1 0
          [⟨"s1", "patient", "d", "pending", 0, 0⟩])).1 ∧
      (retryFailed 3 (syncPass (fun _ => Outcome.permanentFailure) 1 0
          [⟨"s1", "patient", "d", "pending", 0, 0⟩])).2 =
        ((syncPass (fun _ => Outcome.permanentFailure) 1 0
          [⟨"s1", "patient", "d", "pending", 0, 0⟩]).filter
            fun s => s.status == "failed").length) :=
  ⟨by simp, rfl, rfl,
    permanent_failure_excluded_until_retry (fun _ => Outcome.permanentFailure)
      (fun _ => Outcome.success) 1 2 3 0 0
      [⟨"s1", "patient", "d", "pending", 0, 0⟩]
      ⟨"s1", "patient", "d", "pending", 0, 0⟩ (by simp) rfl rfl⟩

end SyncService

namespace OfflineManager

/-- The identifying columns of a queue row: sync processing may change
the bookkeeping columns (`retry_count`, `last_attempt`,
`error_message`) of a row, but never these three. -/
def keyOf (e : SyncQueueRow) : String × String × String :=
  (e.sync_id, e.record_type, e.record_id)

/-- The operations of the claim's reachability statement: saving a
patient or an assessment (with its fault scenario), running one
`sync_data` pass under an environment, and one `_manage_storage`
reclamation sweep. -/
inductive Op where
  | savePatient (now : Nat) (fault : SaveFault) (pid pdata : String)
  | saveAssessment (now : Nat) (fault : SaveFault) (aid pid adata : String)
  | sync (env : Env)
  | reclaim (sizeBytes capMB cutoff : Nat)

/-- State transition of one operation (results discarded). -/
def applyOp : Op → ManagerState → ManagerState
  | .savePatient now f pid pdata, s =>
    { s with ldb := (savePatientOffline now f pid pdata s.ldb).1 }
  | .saveAssessment now f aid pid adata, s =>
    { s with ldb := (saveAssessmentOffline now f aid pid adata s.ldb).1 }
  | .sync env, s => (syncData env s).1
  | .reclaim sz cap cutoff, s => { s with ldb := manageStorage sz cap cutoff s.ldb }

/-- Run a sequence of operations from a state. -/
def runOps : ManagerState → List Op → ManagerState
  | s, [] => s
  | s, op :: rest => runOps (applyOp op s) rest

/-- The fresh state after `_init_local_storage`: empty tables, gate
released. -/
def initState : ManagerState := ⟨⟨[], [], []⟩, false, none⟩

/-- The claimed invariant: every record whose `synced` flag is 0
(pending) has at least one live sync-queue entry referencing it. -/
def pendingHasEntry (db : LocalDB) : Prop :=
  (∀ p ∈ db.patients, p.synced = false →
    ∃ e ∈ db.sync_queue, e.record_type = "patient" ∧ e.record_id = p.patient_id) ∧
  (∀ a ∈ db.assessments, a.synced = false →
    ∃ e ∈ db.sync_queue,
      e.record_type = "health_assessment" ∧ e.record_id = a.assessment_id)

instance (db : LocalDB) : Decidable (pendingHasEntry db) := by
  unfold pendingHasEntry; infer_instance

/-- The PRIMARY KEY constraint of the `sync_queue` table: pairwise
distinct `sync_id`s.  This holds in every reachable state and is the
auxiliary invariant the preservation proof carries. -/
def uniqList (q : List SyncQueueRow) : Prop :=
  q.Pairwise (fun a b => a.sync_id ≠ b.sync_id)

/-- A save operation actually inserts its queue entry iff its execution
is fault-free and the generated `sync_id` does not collide with an
existing row (same record saved twice within one second). -/
def enqueueOk (record_type record_id : String) (now : Nat) (fault : SaveFault)
    (db : LocalDB) : Bool :=
  fault == .ok &&
    db.sync_queue.all (fun e => !(e.sync_id == mkSyncId record_type record_id now))

/-- A sync pass keeps its success-path bookkeeping consistent iff, for
every row of the batch it drains, whenever the remote attempt succeeds
and the separately-committed queue DELETE of
`_update_sync_record_status` goes through, the `synced = 1` UPDATE of
`_mark_record_synced` (on yet another connection, its exception
swallowed) goes through as well.  When the DELETE commits but the mark
fails, the program leaves the record pending with its queue entry
already gone. -/
def syncBookkeepOk (env : Env) (db : LocalDB) : Bool :=
  (getSyncQueueRecords db.sync_queue 50).all
    (fun r => !(env.attemptOk r && env.statusUpdateOk r) || env.markSyncedOk r)

/-- A trace is good when every save operation in it actually inserts its
queue entry (no enqueue fault, no `sync_id` collision) in the state it
executes in, and every sync pass in it keeps its success-path
bookkeeping consistent (no swallowed `_mark_record_synced` failure after
the queue entry was deleted). -/
def goodTrace : ManagerState → List Op → Bool
  | _, [] => true
  | s, op :: rest =>
    (match op with
     | .savePatient now f pid _ => enqueueOk "patient" pid now f s.ldb
     | .saveAssessment now f aid _ _ => enqueueOk "health_assessment" aid now f s.ldb
     | .sync env => syncBookkeepOk env s.ldb
     | _ => true) && goodTrace (applyOp op s) rest

/-- C5, counterexample: a single save whose queue `INSERT` fails (its
exception is swallowed inside `_add_to_sync_queue` while the record
upsert still commits — see the C4 counterexample) reaches, from the
fresh empty store, a state holding a pending patient record and an empty
sync queue: the claimed invariant is violated. -/
theorem pending_without_entry_reachable :
    ¬ pendingHasEntry (runOps initState [Op.savePatient 0 .enqueueFails "p1" "d"]).ldb := by
  decide

end OfflineManager

namespace OfflineManager

/-- The `retry_count`/`last_attempt` update of `_update_sync_attempt`
keeps the identifying columns of every row. -/
theorem keyOf_mem_updateSyncAttempt (now : Nat) (sid : String) (q : List SyncQueueRow) :
    ∀ e ∈ updateSyncAttempt now sid q, ∃ e₀ ∈ q, keyOf e₀ = keyOf e := by
  intro e he
  obtain ⟨e₀, he₀, him⟩ := List.mem_map.mp he
  refine ⟨e₀, he₀, ?_⟩
  rw [← him]
  by_cases h : e₀.sync_id == sid <;> simp [keyOf, h]

/-- The `error_message` update of `_update_sync_record_status` keeps the
identifying columns of every row. -/
theorem keyOf_mem_setErrorMessage (msg sid : String) (q : List SyncQueueRow) :
    ∀ e ∈ setErrorMessage msg sid q, ∃ e₀ ∈ q, keyOf e₀ = keyOf e := by
  intro e he
  obtain ⟨e₀, he₀, him⟩ := List.mem_map.mp he
  refine ⟨e₀, he₀, ?_⟩
  rw [← him]
  by_cases h : e₀.sync_id == sid <;> simp [keyOf, h]

/-- Rows surviving the deletion of `_update_sync_record_status` were in
the queue before. -/
theorem mem_of_mem_deleteQueueEntry (sid : String) (q : List SyncQueueRow) :
    ∀ e ∈ deleteQueueEntry sid q, e ∈ q := by
  intro e he
  exact (List.mem_filter.mp he).1

/-- A witness queue entry for a record survives the
`_update_sync_attempt` update. -/
theorem witness_updateSyncAttempt (now : Nat) (sid t i : String) (q : List SyncQueueRow)
    (h : ∃ e ∈ q, e.record_type = t ∧ e.record_id = i) :
    ∃ e ∈ updateSyncAttempt now sid q, e.record_type = t ∧ e.record_id = i := by
  obtain ⟨e, he, h1, h2⟩ := h
  by_cases hs : e.sync_id == sid
  · refine ⟨{ e with retry_count := e.retry_count + 1, last_attempt := some now },
      ?_, h1, h2⟩
    have : (fun r => if r.sync_id == sid then
        { r with retry_count := r.retry_count + 1, last_attempt := some now } else r) e =
        { e with retry_count := e.retry_count + 1, last_attempt := some now } := by
      simp [hs]
    exact this ▸ List.mem_map_of_mem _ he
  · refine ⟨e, ?_, h1, h2⟩
    have : (fun r => if r.sync_id == sid then
        { r with retry_count := r.retry_count + 1, last_attempt := some now } else r) e = e := by
      simp [hs]
    exact this ▸ List.mem_map_of_mem _ he

/-- A witness queue entry for a record survives the `error_message`
update. -/
theorem witness_setErrorMessage (msg sid t i : String) (q : List SyncQueueRow)
    (h : ∃ e ∈ q, e.record_type = t ∧ e.record_id = i) :
    ∃ e ∈ setErrorMessage msg sid q, e.record_type = t ∧ e.record_id = i := by
  obtain ⟨e, he, h1, h2⟩ := h
  by_cases hs : e.sync_id == sid
  · refine ⟨{ e with error_message := some msg }, ?_, h1, h2⟩
    have : (fun r => if r.sync_id == sid then { r with error_message := some msg } else r) e =
        { e with error_message := some msg } := by simp [hs]
    exact this ▸ List.mem_map_of_mem _ he
  · refine ⟨e, ?_, h1, h2⟩
    have : (fun r => if r.sync_id == sid then { r with error_message := some msg } else r) e =
        e := by simp [hs]
    exact this ▸ List.mem_map_of_mem _ he

/-- A witness queue entry whose identifying columns differ from the
processed row survives the queue-entry deletion, given that every row
sharing the deleted `sync_id` carries the processed row's record type
and id. -/
theorem witness_deleteQueueEntry (r : SyncQueueRow) (t i : String) (q : List SyncQueueRow)
    (hcompat : ∀ e ∈ q, e.sync_id = r.sync_id →
      e.record_type = r.record_type ∧ e.record_id = r.record_id)
    (hmismatch : t ≠ r.record_type ∨ i ≠ r.record_id)
    (h : ∃ e ∈ q, e.record_type = t ∧ e.record_id = i) :
    ∃ e ∈ deleteQueueEntry r.sync_id q, e.record_type = t ∧ e.record_id = i := by
  obtain ⟨e, he, h1, h2⟩ := h
  refine ⟨e, List.mem_filter.mpr ⟨he, ?_⟩, h1, h2⟩
  simp only [Bool.not_eq_eq_eq_not, Bool.not_true, beq_eq_false_iff_ne, ne_eq]
  intro hsid
  obtain ⟨ht, hi⟩ := hcompat e he hsid
  rcases hmismatch with hm | hm
  · exact hm (h1 ▸ ht)
  · exact hm (h2 ▸ hi)

/-- Pairwise-distinct `sync_id`s survive a pointwise update that keeps
every row's `sync_id`, and any filtering. -/
theorem uniqList_map (f : SyncQueueRow → SyncQueueRow)
    (hf : ∀ e, (f e).sync_id = e.sync_id) (q : List SyncQueueRow)
    (h : uniqList q) : uniqList (q.map f) := by
  unfold uniqList at *
  rw [List.pairwise_map]
  exact h.imp (fun hab => by rw [hf, hf]; exact hab)

/-- Filtering preserves pairwise-distinct `sync_id`s. -/
theorem uniqList_filter (p : SyncQueueRow → Bool) (q : List SyncQueueRow)
    (h : uniqList q) : uniqList (q.filter p) :=
  List.Pairwise.sublist (List.filter_sublist q) h

/-- The `_mark_record_synced` update does not touch the sync queue. -/
theorem markRecordSynced_sync_queue (t i : String) (db : LocalDB) :
    (markRecordSynced t i db).sync_queue = db.sync_queue := by
  unfold markRecordSynced
  split
  · rfl
  · split <;> rfl

/-- Record compatibility transfers along key preservation: if every row
of `q` sharing `r`'s `sync_id` refers to `r`'s record and every row of
`q'` takes its identifying columns from some row of `q`, then every row
of `q'` sharing `r`'s `sync_id` refers to `r`'s record too. -/
theorem compat_of_keys (r : SyncQueueRow) {q q' : List SyncQueueRow}
    (hkeys : ∀ e ∈ q', ∃ e₀ ∈ q, keyOf e₀ = keyOf e)
    (hcompat : ∀ e ∈ q, e.sync_id = r.sync_id →
      e.record_type = r.record_type ∧ e.record_id = r.record_id) :
    ∀ e ∈ q', e.sync_id = r.sync_id →
      e.record_type = r.record_type ∧ e.record_id = r.record_id := by
  intro e he hs
  obtain ⟨e₀, he₀, hk⟩ := hkeys e he
  have h1 : e₀.sync_id = e.sync_id := congrArg Prod.fst hk
  have h2 : e₀.record_type = e.record_type := congrArg (fun x => x.2.1) hk
  have h3 : e₀.record_id = e.record_id := congrArg (fun x => x.2.2) hk
  obtain ⟨ha, hb⟩ := hcompat e₀ he₀ (h1.trans hs)
  exact ⟨h2 ▸ ha, h3 ▸ hb⟩

/-- The `_update_sync_attempt` step — whether or not its connection
commits — keeps the identifying columns of every row. -/
theorem keyOf_mem_bookkeepQueue (env : Env) (r : SyncQueueRow) (q : List SyncQueueRow) :
    ∀ e ∈ bookkeepQueue env r q, ∃ e₀ ∈ q, keyOf e₀ = keyOf e := by
  unfold bookkeepQueue
  split
  · exact keyOf_mem_updateSyncAttempt _ _ _
  · intro e he
    exact ⟨e, he, rfl⟩

/-- A witness queue entry for a record survives the
`_update_sync_attempt` step, committed or not. -/
theorem witness_bookkeepQueue (env : Env) (r : SyncQueueRow) (t i : String)
    (q : List SyncQueueRow) (h : ∃ e ∈ q, e.record_type = t ∧ e.record_id = i) :
    ∃ e ∈ bookkeepQueue env r q, e.record_type = t ∧ e.record_id = i := by
  unfold bookkeepQueue
  split
  · exact witness_updateSyncAttempt _ _ _ _ _ h
  · exact h

/-- The `_update_sync_attempt` step preserves pairwise-distinct
`sync_id`s. -/
theorem uniqList_bookkeepQueue (env : Env) (r : SyncQueueRow) (q : List SyncQueueRow)
    (h : uniqList q) : uniqList (bookkeepQueue env r q) := by
  unfold bookkeepQueue
  split
  · exact uniqList_map _
      (fun e => by by_cases hh : e.sync_id == r.sync_id <;> simp [hh]) _ h
  · exact h

/-- Marking a record synced never invalidates the pending-has-entry
invariant while the queue is untouched: the UPDATE only clears pending
flags, so every remaining pending row keeps its old witness. -/
theorem markRecordSynced_preserves_pending (t i : String) (db : LocalDB)
    (h : pendingHasEntry db) : pendingHasEntry (markRecordSynced t i db) := by
  unfold markRecordSynced
  split
  · refine ⟨?_, ?_⟩
    · intro p hp hpend'
      obtain ⟨p₀, hp₀, him⟩ := List.mem_map.mp hp
      by_cases hid : p₀.patient_id == i
      · rw [if_pos hid] at him
        rw [← him] at hpend'
        simp at hpend'
      · rw [if_neg hid] at him
        have hps : p₀.synced = false := by rw [him]; exact hpend'
        obtain ⟨e, he, het, hei⟩ := h.1 p₀ hp₀ hps
        exact ⟨e, he, het, by rw [← him]; exact hei⟩
    · intro a ha hpend'
      exact h.2 a ha hpend'
  · split
    · refine ⟨?_, ?_⟩
      · intro p hp hpend'
        exact h.1 p hp hpend'
      · intro a ha hpend'
        obtain ⟨a₀, ha₀, him⟩ := List.mem_map.mp ha
        by_cases hid : a₀.assessment_id == i
        · rw [if_pos hid] at him
          rw [← him] at hpend'
          simp at hpend'
        · rw [if_neg hid] at him
          have has : a₀.synced = false := by rw [him]; exact hpend'
          obtain ⟨e, he, het, hei⟩ := h.2 a₀ ha₀ has
          exact ⟨e, he, het, by rw [← him]; exact hei⟩
    · exact h

/-- The `_mark_record_synced` step, committed or not, preserves the
invariant when the queue is untouched. -/
theorem markStep_preserves_pending (env : Env) (r : SyncQueueRow) (db : LocalDB)
    (h : pendingHasEntry db) : pendingHasEntry (markStep env r db) := by
  unfold markStep
  split
  · exact markRecordSynced_preserves_pending _ _ _ h
  · exact h

/-- The `_mark_record_synced` step never touches the sync queue. -/
theorem markStep_sync_queue (env : Env) (r : SyncQueueRow) (db : LocalDB) :
    (markStep env r db).sync_queue = db.sync_queue := by
  unfold markStep
  split
  · exact markRecordSynced_sync_queue _ _ _
  · rfl

end OfflineManager

namespace OfflineManager

/-- Processing one queue row with `_sync_record` preserves the
pending-has-entry invariant and the distinctness of `sync_id`s, and only
shrinks or re-bookkeeps the queue (every surviving row's identifying
columns come from a prior row), provided every prior row sharing the
processed row's `sync_id` refers to the processed row's record and the
pass's success bookkeeping is consistent for this row: if the remote
attempt succeeds and the queue DELETE commits, the `synced = 1` UPDATE
commits too (otherwise the program itself breaks the invariant — the
entry is gone while the record stays pending). -/
theorem syncRecord_preserves (env : Env) (db : LocalDB) (r : SyncQueueRow)
    (hpend : pendingHasEntry db) (huniq : uniqList db.sync_queue)
    (hcompat : ∀ e ∈ db.sync_queue, e.sync_id = r.sync_id →
      e.record_type = r.record_type ∧ e.record_id = r.record_id)
    (hbk : env.attemptOk r = true → env.statusUpdateOk r = true →
      env.markSyncedOk r = true) :
    pendingHasEntry (syncRecord env db r).1 ∧
      uniqList (syncRecord env db r).1.sync_queue ∧
      (∀ e ∈ (syncRecord env db r).1.sync_queue, ∃ e₀ ∈ db.sync_queue, keyOf e₀ = keyOf e) := by
  have hsidSet : ∀ e : SyncQueueRow,
      ((fun t => if t.sync_id == r.sync_id then { t with error_message := some "parse error" }
        else t) e).sync_id = e.sync_id := by
    intro e; by_cases h : e.sync_id == r.sync_id <;> simp [h]
  have hcompatB : ∀ e ∈ bookkeepQueue env r db.sync_queue,
      e.sync_id = r.sync_id → e.record_type = r.record_type ∧ e.record_id = r.record_id :=
    compat_of_keys r (keyOf_mem_bookkeepQueue env r db.sync_queue) hcompat
  by_cases hp : env.parseOk r = false
  · rw [syncRecord, if_pos hp]
    by_cases hs : env.statusUpdateOk r = true
    · rw [if_pos hs]
      refine ⟨⟨?_, ?_⟩, ?_, ?_⟩
      · intro p hp' hpend'
        exact witness_setErrorMessage _ _ _ _ _ (hpend.1 p hp' hpend')
      · intro a ha hpend'
        exact witness_setErrorMessage _ _ _ _ _ (hpend.2 a ha hpend')
      · exact uniqList_map _ hsidSet _ huniq
      · exact keyOf_mem_setErrorMessage _ _ _
    · rw [if_neg hs]
      exact ⟨hpend, huniq, fun e he => ⟨e, he, rfl⟩⟩
  · rw [syncRecord, if_neg hp]
    by_cases hty : r.record_type = "patient" ∨ r.record_type = "health_assessment"
    · rw [if_pos hty]
      by_cases hat : env.attemptOk r = true
      · rw [if_pos hat]
        by_cases hs : env.statusUpdateOk r = true
        · have hm : env.markSyncedOk r = true := hbk hat hs
          have hmark : ∀ dbx : LocalDB,
              markStep env r dbx = markRecordSynced r.record_type r.record_id dbx := by
            intro dbx; unfold markStep; rw [if_pos hm]
          rw [if_pos hs, hmark]
          have hqkeys : ∀ e ∈ deleteQueueEntry r.sync_id (bookkeepQueue env r db.sync_queue),
              ∃ e₀ ∈ db.sync_queue, keyOf e₀ = keyOf e := by
            intro e he
            exact keyOf_mem_bookkeepQueue env r db.sync_queue e
              (mem_of_mem_deleteQueueEntry _ _ e he)
          have huniq' : uniqList
              (deleteQueueEntry r.sync_id (bookkeepQueue env r db.sync_queue)) :=
            uniqList_filter _ _ (uniqList_bookkeepQueue env r _ huniq)
          rcases hty with hpat | hasm
          · refine ⟨⟨?_, ?_⟩, ?_, ?_⟩
            · intro p hp' hpend'
              rw [markRecordSynced, hpat, if_pos rfl] at hp'
              obtain ⟨p₀, hp₀, him⟩ := List.mem_map.mp hp'
              by_cases hid : p₀.patient_id == r.record_id
              · rw [if_pos hid] at him
                rw [← him] at hpend'
                simp at hpend'
              · rw [if_neg hid] at him
                rw [markRecordSynced_sync_queue]
                refine witness_deleteQueueEntry r "patient" p.patient_id _ hcompatB
                  (Or.inr ?_) ?_
                · rw [← him]
                  simpa using hid
                · refine witness_bookkeepQueue _ _ _ _ _ ?_
                  have := hpend.1 p₀ hp₀ (him ▸ hpend')
                  rw [← him]
                  simpa [hpat] using this
            · intro a ha hpend'
              rw [markRecordSynced, hpat, if_pos rfl] at ha
              rw [markRecordSynced_sync_queue]
              refine witness_deleteQueueEntry r "health_assessment" a.assessment_id _ hcompatB
                (Or.inl ?_) ?_
              · rw [hpat]; decide
              · exact witness_bookkeepQueue _ _ _ _ _ (hpend.2 a ha hpend')
            · rw [markRecordSynced_sync_queue]
              exact huniq'
            · rw [markRecordSynced_sync_queue]
              exact hqkeys
          · have hnotpat : ¬ r.record_type = "patient" := by
              rw [hasm]; decide
            refine ⟨⟨?_, ?_⟩, ?_, ?_⟩
            · intro p hp' hpend'
              rw [markRecordSynced, if_neg hnotpat, hasm, if_pos rfl] at hp'
              rw [markRecordSynced_sync_queue]
              refine witness_deleteQueueEntry r "patient" p.patient_id _ hcompatB
                (Or.inl ?_) ?_
              · rw [hasm]; decide
              · exact witness_bookkeepQueue _ _ _ _ _ (hpend.1 p hp' hpend')
            · intro a ha hpend'
              rw [markRecordSynced, if_neg hnotpat, hasm, if_pos rfl] at ha
              obtain ⟨a₀, ha₀, him⟩ := List.mem_map.mp ha
              by_cases hid : a₀.assessment_id == r.record_id
              · rw [if_pos hid] at him
                rw [← him] at hpend'
                simp at hpend'
              · rw [if_neg hid] at him
                rw [markRecordSynced_sync_queue]
                refine witness_deleteQueueEntry r "health_assessment" a.assessment_id _ hcompatB
                  (Or.inr ?_) ?_
                · rw [← him]
                  simpa using hid
                · refine witness_bookkeepQueue _ _ _ _ _ ?_
                  have := hpend.2 a₀ ha₀ (him ▸ hpend')
                  rw [← him]
                  simpa [hasm] using this
            · rw [markRecordSynced_sync_queue]
              exact huniq'
            · rw [markRecordSynced_sync_queue]
              exact hqkeys
        · rw [if_neg hs]
          refine ⟨?_, ?_, ?_⟩
          · apply markStep_preserves_pending
            refine ⟨?_, ?_⟩
            · intro p hp' hpend'
              exact witness_bookkeepQueue _ _ _ _ _ (hpend.1 p hp' hpend')
            · intro a ha hpend'
              exact witness_bookkeepQueue _ _ _ _ _ (hpend.2 a ha hpend')
          · rw [markStep_sync_queue]
            exact uniqList_bookkeepQueue env r _ huniq
          · rw [markStep_sync_queue]
            exact keyOf_mem_bookkeepQueue env r db.sync_queue
      · rw [if_neg hat]
        refine ⟨⟨?_, ?_⟩, ?_, ?_⟩
        · intro p hp' hpend'
          exact witness_bookkeepQueue _ _ _ _ _ (hpend.1 p hp' hpend')
        · intro a ha hpend'
          exact witness_bookkeepQueue _ _ _ _ _ (hpend.2 a ha hpend')
        · exact uniqList_bookkeepQueue env r _ huniq
        · exact keyOf_mem_bookkeepQueue env r db.sync_queue
    · rw [if_neg hty]
      refine ⟨⟨?_, ?_⟩, ?_, ?_⟩
      · intro p hp' hpend'
        exact witness_bookkeepQueue _ _ _ _ _ (hpend.1 p hp' hpend')
      · intro a ha hpend'
        exact witness_bookkeepQueue _ _ _ _ _ (hpend.2 a ha hpend')
      · exact uniqList_bookkeepQueue env r _ huniq
      · exact keyOf_mem_bookkeepQueue env r db.sync_queue

end OfflineManager

namespace OfflineManager

/-- The fold step of the sync loop changes the database exactly as
`_sync_record` does. -/
theorem syncStep_fst (env : Env) (acc : LocalDB × Nat × Nat) (r : SyncQueueRow) :
    (syncStep env acc r).1 = (syncRecord env acc.1 r).1 := by
  by_cases h : (syncRecord env acc.1 r).2 = true <;> simp [syncStep, h]

/-- Folding the sync loop over a batch preserves the invariant, provided
every batch row's `sync_id` identifies its record in the current
queue. -/
theorem foldl_syncStep_preserves (env : Env) :
    ∀ (batch : List SyncQueueRow) (acc : LocalDB × Nat × Nat),
      pendingHasEntry acc.1 → uniqList acc.1.sync_queue →
      (∀ b ∈ batch, ∀ e ∈ acc.1.sync_queue, e.sync_id = b.sync_id →
        e.record_type = b.record_type ∧ e.record_id = b.record_id) →
      (∀ b ∈ batch, env.attemptOk b = true → env.statusUpdateOk b = true →
        env.markSyncedOk b = true) →
      pendingHasEntry (batch.foldl (syncStep env) acc).1 ∧
        uniqList (batch.foldl (syncStep env) acc).1.sync_queue := by
  intro batch
  induction batch with
  | nil => intro acc h1 h2 _ _; exact ⟨h1, h2⟩
  | cons b rest ih =>
    intro acc h1 h2 h3 h4
    rw [List.foldl_cons]
    have hrec := syncRecord_preserves env acc.1 b h1 h2 (h3 b (List.mem_cons_self b rest))
      (h4 b (List.mem_cons_self b rest))
    apply ih
    · rw [syncStep_fst]; exact hrec.1
    · rw [syncStep_fst]; exact hrec.2.1
    · intro b' hb' e he hs
      rw [syncStep_fst] at he
      exact compat_of_keys b' hrec.2.2 (h3 b' (List.mem_cons_of_mem _ hb')) e he hs
    · intro b' hb'
      exact h4 b' (List.mem_cons_of_mem _ hb')

/-- One `sync_data` pass with consistent success bookkeeping (whenever
the queue DELETE of a successful attempt commits, the `synced = 1`
UPDATE commits too) preserves the invariant. -/
theorem syncData_preserves_inv (env : Env) (s : ManagerState)
    (h1 : pendingHasEntry s.ldb) (h2 : uniqList s.ldb.sync_queue)
    (hbk : syncBookkeepOk env s.ldb = true) :
    pendingHasEntry (syncData env s).1.ldb ∧
      uniqList (syncData env s).1.ldb.sync_queue := by
  have hbatch : ∀ b ∈ getSyncQueueRecords s.ldb.sync_queue 50,
      env.attemptOk b = true → env.statusUpdateOk b = true →
        env.markSyncedOk b = true := by
    intro b hb ha hst
    unfold syncBookkeepOk at hbk
    have := List.all_eq_true.mp hbk b hb
    simpa [ha, hst] using this
  by_cases hg : s.sync_in_progress = true
  · unfold syncData
    rw [if_pos hg]
    exact ⟨h1, h2⟩
  · unfold syncData
    rw [if_neg hg]
    rcases hb : env.bodyRaises with _ | msg
    · simp only
      by_cases hc : env.connected = false
      · rw [if_pos hc]
        exact ⟨h1, h2⟩
      · rw [if_neg hc]
        have hcompat : ∀ b ∈ getSyncQueueRecords s.ldb.sync_queue 50,
            ∀ e ∈ s.ldb.sync_queue, e.sync_id = b.sync_id →
              e.record_type = b.record_type ∧ e.record_id = b.record_id := by
          intro b hbmem e he hs
          have hbq : b ∈ s.ldb.sync_queue := by
            have hsorted : b ∈ List.insertionSort queueOrder s.ldb.sync_queue :=
              (List.take_sublist _ _).subset hbmem
            exact (List.perm_insertionSort queueOrder s.ldb.sync_queue).mem_iff.mp hsorted
          have hsymm : Symmetric (fun a b : SyncQueueRow => a.sync_id ≠ b.sync_id) :=
            fun _ _ hxy hyx => hxy hyx.symm
          have heb : e = b := by
            by_contra hne
            exact (List.Pairwise.forall hsymm h2 he hbq hne) hs
          rw [heb]
          exact ⟨rfl, rfl⟩
        exact foldl_syncStep_preserves env _ (s.ldb, 0, 0) h1 h2 hcompat hbatch
    · simp only
      exact ⟨h1, h2⟩

/-- A fault-free, collision-free patient save preserves the invariant. -/
theorem savePatientOffline_preserves (now : Nat) (pid pdata : String) (db : LocalDB)
    (h1 : pendingHasEntry db) (h2 : uniqList db.sync_queue)
    (hok : ∀ e ∈ db.sync_queue, e.sync_id ≠ mkSyncId "patient" pid now) :
    pendingHasEntry (savePatientOffline now .ok pid pdata db).1 ∧
      uniqList (savePatientOffline now .ok pid pdata db).1.sync_queue := by
  have hq : (db.sync_queue.any fun e => e.sync_id == mkSyncId "patient" pid now) = false := by
    rw [List.any_eq_false]
    intro e he
    simpa using hok e he
  have hdb : (savePatientOffline now .ok pid pdata db).1 =
      { db with
        patients := upsertPatient pid pdata now db.patients,
        sync_queue := db.sync_queue ++
          [⟨mkSyncId "patient" pid now, "patient", pid, pdata, patientsPriority,
            now, 0, none, none⟩] } := by
    simp [savePatientOffline, addToSyncQueue, hq]
  rw [hdb]
  refine ⟨⟨?_, ?_⟩, ?_⟩
  · intro p hp hpend'
    unfold upsertPatient at hp
    by_cases hex : (db.patients.any fun t => t.patient_id == pid) = true
    · rw [if_pos hex] at hp
      obtain ⟨p₀, hp₀, him⟩ := List.mem_map.mp hp
      by_cases hid : p₀.patient_id == pid
      · rw [if_pos hid] at him
        refine ⟨⟨mkSyncId "patient" pid now, "patient", pid, pdata, patientsPriority,
          now, 0, none, none⟩, List.mem_append_right _ (by simp), rfl, ?_⟩
        rw [← him]
        exact (beq_iff_eq.mp hid).symm
      · rw [if_neg hid] at him
        have hps : p₀.synced = false := by rw [him]; exact hpend'
        obtain ⟨e, he, het, hei⟩ := h1.1 p₀ hp₀ hps
        exact ⟨e, List.mem_append_left _ he, het, by rw [← him]; exact hei⟩
    · rw [if_neg hex] at hp
      rcases List.mem_append.mp hp with hold | hnew
      · obtain ⟨e, he, het, hei⟩ := h1.1 p hold hpend'
        exact ⟨e, List.mem_append_left _ he, het, hei⟩
      · have hpn : p = ⟨pid, pdata, now, now, false⟩ := by simpa using hnew
        refine ⟨⟨mkSyncId "patient" pid now, "patient", pid, pdata, patientsPriority,
          now, 0, none, none⟩, List.mem_append_right _ (by simp), rfl, ?_⟩
        rw [hpn]
  · intro a ha hpend'
    obtain ⟨e, he, het, hei⟩ := h1.2 a ha hpend'
    exact ⟨e, List.mem_append_left _ he, het, hei⟩
  · unfold uniqList
    rw [List.pairwise_append]
    refine ⟨h2, List.pairwise_singleton _ _, ?_⟩
    intro a hamem b hbmem
    have hbE : b = ⟨mkSyncId "patient" pid now, "patient", pid, pdata, patientsPriority,
        now, 0, none, none⟩ := by simpa using hbmem
    rw [hbE]
    exact hok a hamem

/-- A fault-free, collision-free assessment save preserves the
invariant. -/
theorem saveAssessmentOffline_preserves (now : Nat) (aid pid adata : String) (db : LocalDB)
    (h1 : pendingHasEntry db) (h2 : uniqList db.sync_queue)
    (hok : ∀ e ∈ db.sync_queue, e.sync_id ≠ mkSyncId "health_assessment" aid now) :
    pendingHasEntry (saveAssessmentOffline now .ok aid pid adata db).1 ∧
      uniqList (saveAssessmentOffline now .ok aid pid adata db).1.sync_queue := by
  have hq : (db.sync_queue.any fun e =>
      e.sync_id == mkSyncId "health_assessment" aid now) = false := by
    rw [List.any_eq_false]
    intro e he
    simpa using hok e he
  have hdb : (saveAssessmentOffline now .ok aid pid adata db).1 =
      { db with
        assessments := upsertAssessment aid pid adata now db.assessments,
        sync_queue := db.sync_queue ++
          [⟨mkSyncId "health_assessment" aid now, "health_assessment", aid, adata,
            assessmentsPriority, now, 0, none, none⟩] } := by
    simp [saveAssessmentOffline, addToSyncQueue, hq]
  rw [hdb]
  refine ⟨⟨?_, ?_⟩, ?_⟩
  · intro p hp hpend'
    obtain ⟨e, he, het, hei⟩ := h1.1 p hp hpend'
    exact ⟨e, List.mem_append_left _ he, het, hei⟩
  · intro a ha hpend'
    unfold upsertAssessment at ha
    by_cases hex : (db.assessments.any fun t => t.assessment_id == aid) = true
    · rw [if_pos hex] at ha
      obtain ⟨a₀, ha₀, him⟩ := List.mem_map.mp ha
      by_cases hid : a₀.assessment_id == aid
      · rw [if_pos hid] at him
        refine ⟨⟨mkSyncId "health_assessment" aid now, "health_assessment", aid, adata,
          assessmentsPriority, now, 0, none, none⟩,
          List.mem_append_right _ (by simp), rfl, ?_⟩
        rw [← him]
        exact (beq_iff_eq.mp hid).symm
      · rw [if_neg hid] at him
        have has : a₀.synced = false := by rw [him]; exact hpend'
        obtain ⟨e, he, het, hei⟩ := h1.2 a₀ ha₀ has
        exact ⟨e, List.mem_append_left _ he, het, by rw [← him]; exact hei⟩
    · rw [if_neg hex] at ha
      rcases List.mem_append.mp ha with hold | hnew
      · obtain ⟨e, he, het, hei⟩ := h1.2 a hold hpend'
        exact ⟨e, List.mem_append_left _ he, het, hei⟩
      · have han : a = ⟨aid, pid, adata, now, false⟩ := by simpa using hnew
        refine ⟨⟨mkSyncId "health_assessment" aid now, "health_assessment", aid, adata,
          assessmentsPriority, now, 0, none, none⟩,
          List.mem_append_right _ (by simp), rfl, ?_⟩
        rw [han]
  · unfold uniqList
    rw [List.pairwise_append]
    refine ⟨h2, List.pairwise_singleton _ _, ?_⟩
    intro a hamem b hbmem
    have hbE : b = ⟨mkSyncId "health_assessment" aid now, "health_assessment", aid, adata,
        assessmentsPriority, now, 0, none, none⟩ := by simpa using hbmem
    rw [hbE]
    exact hok a hamem

/-- The reclamation sweep preserves the invariant: it deletes only
synced rows and leaves the queue alone. -/
theorem manageStorage_preserves (sz cap cutoff : Nat) (db : LocalDB)
    (h1 : pendingHasEntry db) (h2 : uniqList db.sync_queue) :
    pendingHasEntry (manageStorage sz cap cutoff db) ∧
      uniqList (manageStorage sz cap cutoff db).sync_queue := by
  unfold manageStorage
  split
  · refine ⟨⟨?_, ?_⟩, h2⟩
    · intro p hp hpend'
      exact h1.1 p (List.mem_filter.mp hp).1 hpend'
    · intro a ha hpend'
      exact h1.2 a (List.mem_filter.mp ha).1 hpend'
  · exact ⟨h1, h2⟩

/-- Running a good trace preserves the invariant from any state
satisfying it. -/
theorem runOps_preserves : ∀ (ops : List Op) (s : ManagerState),
    pendingHasEntry s.ldb → uniqList s.ldb.sync_queue → goodTrace s ops = true →
    pendingHasEntry (runOps s ops).ldb ∧ uniqList (runOps s ops).ldb.sync_queue := by
  intro ops
  induction ops with
  | nil => intro s h1 h2 _; exact ⟨h1, h2⟩
  | cons op rest ih =>
    intro s h1 h2 hg
    cases op with
    | savePatient now f pid pdata =>
      simp only [goodTrace, Bool.and_eq_true] at hg
      obtain ⟨hcond, hrest⟩ := hg
      unfold enqueueOk at hcond
      rw [Bool.and_eq_true] at hcond
      obtain ⟨hf', hall⟩ := hcond
      have hf : f = .ok := by simpa using hf'
      have hok : ∀ e ∈ s.ldb.sync_queue, e.sync_id ≠ mkSyncId "patient" pid now := by
        intro e he
        simpa using List.all_eq_true.mp hall e he
      subst hf
      have hpres := savePatientOffline_preserves now pid pdata s.ldb h1 h2 hok
      exact ih _ hpres.1 hpres.2 hrest
    | saveAssessment now f aid pid adata =>
      simp only [goodTrace, Bool.and_eq_true] at hg
      obtain ⟨hcond, hrest⟩ := hg
      unfold enqueueOk at hcond
      rw [Bool.and_eq_true] at hcond
      obtain ⟨hf', hall⟩ := hcond
      have hf : f = .ok := by simpa using hf'
      have hok : ∀ e ∈ s.ldb.sync_queue,
          e.sync_id ≠ mkSyncId "health_assessment" aid now := by
        intro e he
        simpa using List.all_eq_true.mp hall e he
      subst hf
      have hpres := saveAssessmentOffline_preserves now aid pid adata s.ldb h1 h2 hok
      exact ih _ hpres.1 hpres.2 hrest
    | sync env =>
      simp only [goodTrace, Bool.and_eq_true] at hg
      have hpres := syncData_preserves_inv env s h1 h2 hg.1
      exact ih _ hpres.1 hpres.2 hg.2
    | reclaim sz cap cutoff =>
      simp only [goodTrace, Bool.and_eq_true] at hg
      have hpres := manageStorage_preserves sz cap cutoff s.ldb h1 h2
      exact ih _ hpres.1 hpres.2 hg.2

/-- C5, amended: in every state reached from the fresh store by a
sequence of save, sync and reclamation operations in which every save
actually inserts its queue entry (no enqueue fault and no same-second
`sync_id` collision) and every sync pass keeps its success bookkeeping
consistent (whenever a successful attempt's separately-committed queue
DELETE goes through, the `synced = 1` UPDATE of `_mark_record_synced`
goes through as well), every pending record has at least one live
corresponding sync-queue entry.  Both provisos are necessary: a save
whose swallowed enqueue error leaves the record pending with no entry is
reachable (see the counterexample), and so is a pass that durably
deletes the queue entry while the swallowed `_mark_record_synced`
failure leaves the record pending. -/
theorem pending_has_entry_of_goodTrace (ops : List Op)
    (h : goodTrace initState ops = true) :
    pendingHasEntry (runOps initState ops).ldb :=
  (runOps_preserves ops initState (by decide) List.Pairwise.nil h).1

/-- The sync-bookkeeping proviso of the amended invariant is necessary:
after a fault-free save, a connected pass whose successful attempt
commits the queue DELETE of `_update_sync_record_status` while the
`synced = 1` UPDATE of `_mark_record_synced` fails (its exception
swallowed on its own connection) leaves the record pending with its
queue entry durably gone. -/
theorem pending_without_entry_after_mark_fault :
    ¬ pendingHasEntry (runOps initState
      [Op.savePatient 0 .ok "p1" "d",
        Op.sync ⟨true, 1, none, fun _ => true, fun _ => true, fun _ => true,
          fun _ => true, fun _ => false⟩]).ldb := by
  decide

/-- C5, witness: a fault-free save, a connected sync pass and a
reclamation sweep form a good trace, and the resulting state satisfies
the invariant. -/
theorem pending_has_entry_of_goodTrace_witness :
    goodTrace initState
        [Op.savePatient 0 .ok "p1" "d",
          Op.sync ⟨true, 1, none, fun _ => true, fun _ => true, fun _ => true, fun _ => true, fun _ => true⟩,
          Op.reclaim 1000000000 100 50] = true ∧
      pendingHasEntry (runOps initState
        [Op.savePatient 0 .ok "p1" "d",
          Op.sync ⟨true, 1, none, fun _ => true, fun _ => true, fun _ => true, fun _ => true, fun _ => true⟩,
          Op.reclaim 1000000000 100 50]).ldb :=
  ⟨by decide, pending_has_entry_of_goodTrace _ (by decide)⟩

end OfflineManager
